import Mathlib

/-!
Verification of the game-theoretic strategy engine of the legal-oracle
repository: the Nash-equilibrium endpoint (stub_api/main.py), the
settlement/BATNA arithmetic (stub_api/enhanced_prompts_v2.py) and the
docket-alert recalculation trigger (stub_api/docket_alerts.py), shallowly
embedded over exact rational arithmetic.
-/

namespace LegalOracle

/-- The literal 1e-9 tolerance of the pure-equilibrium best-response check. -/
def eps9 : ℚ := 1 / 1000000000

/-- The literal 1e-12 near-zero guard of the 2x2 mixed-strategy solver. -/
def eps12 : ℚ := 1 / 1000000000000

/-! String helpers modelling the Python string operations used by the
source (`in` substring test, `.lower()`, `.replace(" ", "_")`). -/

/-- Model of list-level leading-segment test (used to build the Python
substring test `pat in s`). -/
def leadsCh : List Char → List Char → Bool
  | [], _ => true
  | _ :: _, [] => false
  | a :: as, b :: bs => a == b && leadsCh as bs

/-- Model of the Python substring test on character lists: `subListCh pat s`
is true iff `pat` occurs contiguously inside `s`. -/
def subListCh (pat : List Char) : List Char → Bool
  | [] => pat.isEmpty
  | c :: rest => leadsCh pat (c :: rest) || subListCh pat rest

/-- Python `pat in s` on strings. -/
def strHasSub (s pat : String) : Bool := subListCh pat.data s.data

/-- Python `s.lower()` (ASCII behaviour, character-wise). -/
def strLower (s : String) : String := ⟨s.data.map Char.toLower⟩

/-! Payoff model and Nash-equilibrium endpoint, from
`src/stub_api/main.py` (`nash_equilibrium`). -/

/-- One entry of `pure_equilibria`: the dict
`{"row": i, "col": j, "p1_payoff": ..., "p2_payoff": ...}`. -/
structure PureEq where
  row : ℕ
  col : ℕ
  p1_payoff : ℚ
  p2_payoff : ℚ
deriving DecidableEq, Repr

/-- One entry of `mixed_equilibria` (the `"2x2_mixed"` dict). -/
structure MixedEq where
  p_player1_row0 : ℚ
  p_player2_col0 : ℚ
  p1_expected : ℚ
  p2_expected : ℚ
deriving DecidableEq, Repr

/-- Matrix cell access `x[i, j]`. An out-of-bounds index returns the
default 0 where numpy indexing would raise IndexError, so the embedding
is exact only for in-bounds reads; every claim theorem below therefore
restricts its statement to inputs on which the source performs in-bounds
reads only. -/
def getq (x : List (List ℚ)) (i j : ℕ) : ℚ := (x.getD i []).getD j 0

/-- The pure-strategy equilibrium enumeration loop of `nash_equilibrium`:
cell (i,j) is kept iff no row k has `p1[k,j] > p1[i,j] + 1e-9` and no
column l has `p2[i,l] > p2[i,j] + 1e-9` (the `p1_best`/`p2_best` boolean
scans of the source are embedded as the equivalent bounded quantifiers). -/
def findPureEquilibria (p1 p2 : List (List ℚ)) : List PureEq :=
  let m := p1.length
  let n := (p1.headD []).length
  (List.range m).flatMap (fun i =>
    (List.range n).filterMap (fun j =>
      let p1_payoff := getq p1 i j
      let p2_payoff := getq p2 i j
      if (∀ k ∈ List.range m, getq p1 k j ≤ p1_payoff + eps9) ∧
         (∀ l ∈ List.range n, getq p2 i l ≤ p2_payoff + eps9) then
        some ⟨i, j, p1_payoff, p2_payoff⟩
      else none))

/-- The 2x2 closed-form mixed-strategy solver of `nash_equilibrium`:
`q = (d-b)/((a-b)-(c-d))` and `p = (h-f)/((e-f)-(g-h))`, each division
guarded by `abs(denom) > 1e-12`, the result kept only when both
probabilities lie in [0,1]. The source materializes `q` and `p` as
None-able intermediates and then tests
`q is not None and 0 <= q <= 1 and p is not None and 0 <= p <= 1`; the
embedding folds that into the equivalent nested guards, so each quotient
is formed only under its own non-zero-denominator guard. -/
def findMixed2x2 (p1 p2 : List (List ℚ)) : Option MixedEq :=
  let a := getq p1 0 0
  let b := getq p1 0 1
  let c := getq p1 1 0
  let d := getq p1 1 1
  let e := getq p2 0 0
  let f := getq p2 0 1
  let g := getq p2 1 0
  let h := getq p2 1 1
  let denom1 := (a - b) - (c - d)
  let denom2 := (e - f) - (g - h)
  if eps12 < |denom1| then
    if eps12 < |denom2| then
      let q := (d - b) / denom1
      let p := (h - f) / denom2
      if 0 ≤ q ∧ q ≤ 1 ∧ 0 ≤ p ∧ p ≤ 1 then
        some { p_player1_row0 := p
               p_player2_col0 := q
               p1_expected := p * (q * a + (1 - q) * b) + (1 - p) * (q * c + (1 - q) * d)
               p2_expected := p * (q * e + (1 - q) * f) + (1 - p) * (q * g + (1 - q) * h) }
      else none
    else none
  else none

/-- The six numeric inputs of a settlement analysis. -/
structure BargainingState where
  plaintiff_demand : ℚ
  defendant_offer : ℚ
  win_probability : ℚ
  expected_judgment : ℚ
  trial_costs_plaintiff : ℚ
  trial_costs_defendant : ℚ

/-- The two BATNA values actually computed by `build_settlement_prompt`:
`plaintiff_ev = win_probability*expected_judgment - trial_costs_plaintiff`
and `defendant_ev = win_probability*expected_judgment + trial_costs_defendant`. -/
def buildSettlementValues (win_probability expected_judgment trial_costs_plaintiff trial_costs_defendant : ℚ) : ℚ × ℚ :=
  (win_probability * expected_judgment - trial_costs_plaintiff,
   win_probability * expected_judgment + trial_costs_defendant)

/-- The settlement analysis result. -/
structure BargainingAnalysis where
  plaintiff_batna : ℚ
  defendant_batna : ℚ
  zopa_exists : Bool
  zopa_range : Option (ℚ × ℚ)
  nash_solution : Option ℚ
deriving DecidableEq, Repr

/-- Modelled from the spec: the `analyze_settlement` contract (§4.4). The
source computes only the two BATNA values (`plaintiff_ev`/`defendant_ev` in
`build_settlement_prompt`); the ZOPA-existence test, the `[plaintiff_batna,
defendant_batna]` range and the midpoint Nash solution appear in the source
only as LLM prompt text, so that part is taken from the spec's words:
ZOPA exists iff `plaintiff_batna < defendant_batna`, and the symmetric Nash
bargaining point is the midpoint of the ZOPA. -/
def analyze_settlement (s : BargainingState) : BargainingAnalysis :=
  let v := buildSettlementValues s.win_probability s.expected_judgment s.trial_costs_plaintiff s.trial_costs_defendant
  let plaintiff_batna := v.1
  let defendant_batna := v.2
  if plaintiff_batna < defendant_batna then
    { plaintiff_batna := plaintiff_batna
      defendant_batna := defendant_batna
      zopa_exists := true
      zopa_range := some (plaintiff_batna, defendant_batna)
      nash_solution := some ((plaintiff_batna + defendant_batna) / 2) }
  else
    { plaintiff_batna := plaintiff_batna
      defendant_batna := defendant_batna
      zopa_exists := false
      zopa_range := none
      nash_solution := none }

/-! Docket-alert recalculation trigger, from
`src/stub_api/docket_alerts.py` (`should_recalculate_nash`,
`recalculate_nash`, `process_new_filing`). -/

/-- The fixed `significant_filings` list of `should_recalculate_nash`. -/
def significant_filings : List String :=
  ["motion_for_summary_judgment",
   "motion_to_dismiss",
   "settlement_offer",
   "expert_report",
   "deposition_transcript",
   "order",
   "ruling",
   "verdict",
   "damages_calculation",
   "amended_complaint"]

/-- Python `filing_type.lower().replace(" ", "_")`. -/
def normalizeFiling (ft : String) : String :=
  ⟨(ft.data.map Char.toLower).map (fun c => if c = ' ' then '_' else c)⟩

/-- `should_recalculate_nash`: true iff some significant token occurs as a
substring of the lowercased, space-normalized filing type. -/
def shouldRecalculateNash (filing_type : String) : Bool :=
  let filing_type_lower := normalizeFiling filing_type
  significant_filings.any (fun sf => strHasSub filing_type_lower sf)

/-- Follows the spec sentence word for word, for comparison with the
source's `should_recalculate_nash`: the filing type, matched
case-insensitively with separators normalized, is a member of the fixed
significance list. -/
def specSignificanceMatch (filing_type : String) : Bool :=
  significant_filings.contains (normalizeFiling filing_type)

/-- The fields of the `filing_details` dict read by `recalculate_nash`
(each `.get` default is applied at the use site). -/
structure FilingDetails where
  ftype : String
  granted : Bool
  movant : Option String
  amount : Option ℚ
  damages_opinion_change : Option ℚ

/-- The `game_theory_params` dict of a subscription; every field is
optional because the source reads each key with `params.get(key, default)`. -/
structure GameParameters where
  settlement_offer : Option ℚ
  expected_judgment : Option ℚ
  trial_costs : Option ℚ
  win_probability : Option ℚ
  previous_optimal_strategy : Option String
deriving DecidableEq, Repr

/-- A Python value as it can appear in the `strategy_changed` field:
`previous_strategy and previous_strategy != new_strategy` yields
`previous_strategy` itself (None or the empty string) when it is falsy,
and a bool otherwise. -/
inductive PyVal where
  | vNone
  | vStr (s : String)
  | vBool (b : Bool)
deriving DecidableEq, Repr

/-- The recalculation record returned by `recalculate_nash` (the fields the
spec's claims are about). -/
structure NashRecord where
  optimal_strategy : String
  previous_strategy : Option String
  strategy_changed : PyVal
  win_probability : ℚ
  trial_expected_value : ℚ
  settlement_value : ℚ
deriving DecidableEq, Repr

/-- `recalculate_nash` on an initialized `game_theory_params` dict: adjust
the parameters according to the filing type (an if/elif chain on substrings
of the lowercased `details["type"]`), clamp `win_probability` to
[0.05, 0.95], recompute the trial expected value, pick the new optimal
strategy, compute `strategy_changed` with Python `and` semantics, store the
new strategy, and return the record together with the mutated parameters. -/
def recalculateNash (params : GameParameters) (d : FilingDetails) : NashRecord × GameParameters :=
  let previous_strategy := params.previous_optimal_strategy
  let filing_type := strLower d.ftype
  let win_prob_adjustment : ℚ :=
    if strHasSub filing_type "summary_judgment" then
      (if d.granted then (if d.movant = some "plaintiff" then 3/10 else -(3/10))
       else (if d.movant = some "defendant" then 1/10 else -(1/10)))
    else 0
  let params1 :=
    if strHasSub filing_type "summary_judgment" then params
    else if strHasSub filing_type "settlement" then
      { params with settlement_offer := some (d.amount.getD (params.settlement_offer.getD 0)) }
    else if strHasSub filing_type "expert" then
      { params with expected_judgment := some (params.expected_judgment.getD 100000 + d.damages_opinion_change.getD 0) }
    else params
  let new_win_prob := max (1/20) (min (19/20) (params1.win_probability.getD (1/2) + win_prob_adjustment))
  let params2 := { params1 with win_probability := some new_win_prob }
  let settlement := params2.settlement_offer.getD 50000
  let judgment := params2.expected_judgment.getD 100000
  let trial_costs := params2.trial_costs.getD 25000
  let trial_ev := new_win_prob * judgment - trial_costs
  let new_strategy := if settlement < trial_ev then "trial" else "settle"
  let strategy_changed : PyVal :=
    match previous_strategy with
    | none => .vNone
    | some s => if s = "" then .vStr "" else .vBool (decide (s ≠ new_strategy))
  let params3 := { params2 with previous_optimal_strategy := some new_strategy }
  ({ optimal_strategy := new_strategy
     previous_strategy := previous_strategy
     strategy_changed := strategy_changed
     win_probability := new_win_prob
     trial_expected_value := trial_ev
     settlement_value := settlement }, params3)

/-- A docket filing event as routed by `process_new_filing`: the filing
type used for the significance test, and the details dict passed to
`recalculate_nash`. -/
structure CaseEvent where
  filing_type : String
  details : FilingDetails

/-- The recalculation path of `process_new_filing` for a subscription with
initialized `game_theory_params`: run `recalculate_nash` iff
`should_recalculate_nash` accepts the filing type, else leave the stored
parameters untouched. -/
def processEvent (params : GameParameters) (e : CaseEvent) : GameParameters :=
  if shouldRecalculateNash e.filing_type then (recalculateNash params e.details).2 else params

/-! Helper lemmas. -/

/-- A leading-segment test succeeds exactly on lists extending the pattern. -/
theorem leadsCh_iff (pat : List Char) : ∀ l : List Char, leadsCh pat l = true ↔ ∃ t, l = pat ++ t := by
  induction pat with
  | nil =>
    intro l
    simp [leadsCh]
  | cons a as ih =>
    intro l
    cases l with
    | nil => simp [leadsCh]
    | cons b bs =>
      simp only [leadsCh, Bool.and_eq_true, beq_iff_eq, ih bs, List.cons_append]
      constructor
      · rintro ⟨hab, t, ht⟩
        exact ⟨t, by rw [hab, ht]⟩
      · rintro ⟨t, ht⟩
        injection ht with hb hrest
        exact ⟨hb.symm, t, hrest⟩

/-- The substring test succeeds exactly when the pattern occurs contiguously. -/
theorem subListCh_iff (pat : List Char) : ∀ l : List Char, subListCh pat l = true ↔ ∃ u t, l = u ++ pat ++ t := by
  intro l
  induction l with
  | nil =>
    simp only [subListCh, List.isEmpty_iff]
    constructor
    · intro h
      exact ⟨[], [], by simp [h]⟩
    · rintro ⟨u, t, ht⟩
      rcases List.append_eq_nil.mp (List.append_eq_nil.mp ht.symm).1 with ⟨-, h2⟩
      exact h2
  | cons c rest ih =>
    simp only [subListCh, Bool.or_eq_true, leadsCh_iff, ih]
    constructor
    · rintro (⟨t, ht⟩ | ⟨u, t, ht⟩)
      · exact ⟨[], t, by simpa using ht⟩
      · exact ⟨c :: u, t, by simp [ht]⟩
    · rintro ⟨u, t, ht⟩
      cases u with
      | nil => exact Or.inl ⟨t, by simpa using ht⟩
      | cons u0 us =>
        injection ht with h1 h2
        exact Or.inr ⟨us, t, h2⟩

/-- Characterization of membership in the pure-equilibrium enumeration. -/
theorem mem_findPureEquilibria (p1 p2 : List (List ℚ)) (i j : ℕ) (a b : ℚ) :
    (⟨i, j, a, b⟩ : PureEq) ∈ findPureEquilibria p1 p2 ↔
      i < p1.length ∧ j < (p1.headD []).length ∧
      a = getq p1 i j ∧ b = getq p2 i j ∧
      (∀ k, k < p1.length → getq p1 k j ≤ getq p1 i j + eps9) ∧
      (∀ l, l < (p1.headD []).length → getq p2 i l ≤ getq p2 i j + eps9) := by
  simp only [findPureEquilibria, List.mem_flatMap, List.mem_filterMap, List.mem_range]
  constructor
  · rintro ⟨r, hr, c, hc, hx⟩
    split at hx
    case isTrue hcond =>
      rw [Option.some_inj] at hx
      obtain ⟨hri, hcj, hap, hbp⟩ : r = i ∧ c = j ∧ getq p1 r c = a ∧ getq p2 r c = b := by
        cases hx
        exact ⟨rfl, rfl, rfl, rfl⟩
      subst hri hcj
      refine ⟨hr, hc, hap.symm, hbp.symm, ?_, ?_⟩
      · intro k hk
        exact hcond.1 k hk
      · intro l hl
        exact hcond.2 l hl
    case isFalse => exact absurd hx (by simp)
  · rintro ⟨hi, hj, ha, hb, hb1, hb2⟩
    refine ⟨i, hi, j, hj, ?_⟩
    rw [if_pos]
    · rw [Option.some_inj, ha, hb]
    · exact ⟨hb1, hb2⟩

/-- Every recalculation stores a clamped win probability. -/
theorem recalculateNash_win_prob_clamped (params : GameParameters) (d : FilingDetails) :
    ∃ w, ((recalculateNash params d).2).win_probability = some w ∧ 1/20 ≤ w ∧ w ≤ 19/20 :=
  ⟨_, rfl, le_max_left _ _, max_le (by norm_num) (min_le_left _ _)⟩

/-- An expert filing (no summary-judgment or settlement token in its type)
adds the reported damages delta to the stored expected judgment. -/
theorem recalculateNash_expert_step (params : GameParameters) (d : FilingDetails) (j δ : ℚ)
    (hj : params.expected_judgment = some j)
    (h1 : strHasSub (strLower d.ftype) "summary_judgment" = false)
    (h2 : strHasSub (strLower d.ftype) "settlement" = false)
    (h3 : strHasSub (strLower d.ftype) "expert" = true)
    (hd : d.damages_opinion_change = some δ) :
    ((recalculateNash params d).2).expected_judgment = some (j + δ) := by
  simp [recalculateNash, h1, h2, h3, hj, hd]

/-! Claim theorems. -/

/-- C1 (counterexample): the claim as stated is false on the code. With
p1 = [[0],[5e-10]] and p2 = [[0],[0]], the cell (0,0) is returned by
`find_pure_equilibria` even though player 1's payoff there (0) is not the
maximum of column 0 and is strictly beaten by row 1 (payoff 5e-10): the
1e-9 tolerance admits near-ties, so a returned cell can be strictly beaten. -/
theorem C1_counterexample :
    (⟨0, 0, 0, 0⟩ : PureEq) ∈ findPureEquilibria [[0], [1/2000000000]] [[0], [0]] ∧
    getq [[0], [1/2000000000]] 0 0 < getq [[0], [1/2000000000]] 1 0 := by
  have g00 : getq [[0], [1/2000000000]] 0 0 = 0 := rfl
  have g10 : getq [[0], [1/2000000000]] 1 0 = 1/2000000000 := rfl
  have h00 : getq [[(0 : ℚ)], [0]] 0 0 = 0 := rfl
  have h10 : getq [[(0 : ℚ)], [0]] 1 0 = 0 := rfl
  constructor
  · rw [show (⟨0, 0, 0, 0⟩ : PureEq) = ⟨0, 0, getq [[0], [1/2000000000]] 0 0, getq [[(0 : ℚ)], [0]] 0 0⟩ from by rw [g00, h00]]
    rw [mem_findPureEquilibria]
    refine ⟨by norm_num, by norm_num, rfl, rfl, ?_, ?_⟩
    · intro k hk
      norm_num at hk
      interval_cases k <;> norm_num [g00, g10, eps9]
    · intro l hl
      norm_num [Nat.lt_one_iff] at hl
      subst hl
      norm_num [h00, eps9]
  · rw [g00, g10]
    norm_num

/-- C1 (amended): for every m×n matrix pair and in-bounds cell (i,j), the
cell is returned by `find_pure_equilibria` iff every row payoff of column j
for player 1 is at most p1[i][j] + 1e-9 and every column payoff of row i for
player 2 is at most p2[i][j] + 1e-9: all ties (and near-ties up to 1e-9)
are included, and no returned cell is beaten by more than 1e-9. -/
theorem C1_pure_equilibria_characterization (p1 p2 : List (List ℚ)) (i j : ℕ)
    (hi : i < p1.length) (hj : j < (p1.headD []).length) :
    (⟨i, j, getq p1 i j, getq p2 i j⟩ : PureEq) ∈ findPureEquilibria p1 p2 ↔
      ((∀ k, k < p1.length → getq p1 k j ≤ getq p1 i j + eps9) ∧
       (∀ l, l < (p1.headD []).length → getq p2 i l ≤ getq p2 i j + eps9)) := by
  constructor
  · intro hmem
    obtain ⟨-, -, -, -, hb1, hb2⟩ := (mem_findPureEquilibria p1 p2 i j _ _).mp hmem
    exact ⟨hb1, hb2⟩
  · rintro ⟨hb1, hb2⟩
    exact (mem_findPureEquilibria p1 p2 i j _ _).mpr ⟨hi, hj, rfl, rfl, hb1, hb2⟩

/-- C1 (witness): in the coordination game p1 = p2 = [[1,0],[0,1]] the cell
(0,0) satisfies the double best-response condition and is returned. -/
theorem C1_witness :
    (⟨0, 0, getq [[1, 0], [0, 1]] 0 0, getq [[1, 0], [0, 1]] 0 0⟩ : PureEq) ∈
      findPureEquilibria [[1, 0], [0, 1]] [[1, 0], [0, 1]] := by
  refine (C1_pure_equilibria_characterization [[1, 0], [0, 1]] [[1, 0], [0, 1]] 0 0
    (by norm_num) (by norm_num)).mpr ⟨?_, ?_⟩
  · intro k hk
    norm_num at hk
    interval_cases k <;> norm_num [show getq [[(1 : ℚ), 0], [0, 1]] 0 0 = 1 from rfl,
      show getq [[(1 : ℚ), 0], [0, 1]] 1 0 = 0 from rfl, eps9]
  · intro l hl
    norm_num at hl
    interval_cases l <;> norm_num [show getq [[(1 : ℚ), 0], [0, 1]] 0 0 = 1 from rfl,
      show getq [[(1 : ℚ), 0], [0, 1]] 0 1 = 0 from rfl, eps9]

/-- C9: the pure-equilibrium finder uses a 1e-9 tolerance in both
best-response checks — an in-bounds cell (i,j) is returned iff no row k has
p1[k][j] > p1[i][j] + 1e-9 and no column l has p2[i][l] > p2[i][j] + 1e-9 —
and consequently the cell (0,0) of p1 = [[0],[1e-9]], p2 = [[0],[0]], whose
player-1 payoff is strictly beaten by exactly 1e-9, is still reported. -/
theorem C9_tolerance_in_best_response :
    (∀ (p1 p2 : List (List ℚ)) (i j : ℕ), i < p1.length → j < (p1.headD []).length →
      ((⟨i, j, getq p1 i j, getq p2 i j⟩ : PureEq) ∈ findPureEquilibria p1 p2 ↔
        ((∀ k, k < p1.length → ¬ (getq p1 i j + eps9 < getq p1 k j)) ∧
         (∀ l, l < (p1.headD []).length → ¬ (getq p2 i j + eps9 < getq p2 i l))))) ∧
    (⟨0, 0, 0, 0⟩ : PureEq) ∈ findPureEquilibria [[0], [eps9]] [[0], [0]] ∧
    getq [[0], [eps9]] 0 0 < getq [[0], [eps9]] 1 0 := by
  have g00 : getq [[0], [eps9]] 0 0 = 0 := rfl
  have g10 : getq [[0], [eps9]] 1 0 = eps9 := rfl
  have h00 : getq [[(0 : ℚ)], [0]] 0 0 = 0 := rfl
  refine ⟨?_, ?_, by rw [g00, g10]; norm_num [eps9]⟩
  · intro p1 p2 i j hi hj
    constructor
    · intro hmem
      obtain ⟨-, -, -, -, hb1, hb2⟩ := (mem_findPureEquilibria p1 p2 i j _ _).mp hmem
      exact ⟨fun k hk => not_lt.mpr (hb1 k hk), fun l hl => not_lt.mpr (hb2 l hl)⟩
    · rintro ⟨hb1, hb2⟩
      exact (mem_findPureEquilibria p1 p2 i j _ _).mpr
        ⟨hi, hj, rfl, rfl, fun k hk => not_lt.mp (hb1 k hk), fun l hl => not_lt.mp (hb2 l hl)⟩
  · rw [show (⟨0, 0, 0, 0⟩ : PureEq) = ⟨0, 0, getq [[0], [eps9]] 0 0, getq [[(0 : ℚ)], [0]] 0 0⟩ from by rw [g00, h00]]
    rw [mem_findPureEquilibria]
    refine ⟨by norm_num, by norm_num, rfl, rfl, ?_, ?_⟩
    · intro k hk
      norm_num at hk
      interval_cases k <;> simp only [g00, g10] <;> norm_num [eps9]
    · intro l hl
      norm_num [Nat.lt_one_iff] at hl
      subst hl
      simp only [g00, h00]
      norm_num [eps9]

/-- C9 (witness): in the Prisoner's Dilemma p1 = [[3,0],[5,1]],
p2 = [[3,5],[0,1]] the cell (1,1) passes both tolerance checks and is
returned. -/
theorem C9_witness :
    (⟨1, 1, getq [[3, 0], [5, 1]] 1 1, getq [[3, 5], [0, 1]] 1 1⟩ : PureEq) ∈
      findPureEquilibria [[3, 0], [5, 1]] [[3, 5], [0, 1]] := by
  refine ((C9_tolerance_in_best_response.1) [[3, 0], [5, 1]] [[3, 5], [0, 1]] 1 1
    (by norm_num) (by norm_num)).mpr ⟨?_, ?_⟩
  · intro k hk
    norm_num at hk
    interval_cases k <;> norm_num [show getq [[(3 : ℚ), 0], [5, 1]] 1 1 = 1 from rfl,
      show getq [[(3 : ℚ), 0], [5, 1]] 0 1 = 0 from rfl, eps9]
  · intro l hl
    norm_num at hl
    interval_cases l <;> norm_num [show getq [[(3 : ℚ), 5], [0, 1]] 1 1 = 1 from rfl,
      show getq [[(3 : ℚ), 5], [0, 1]] 1 0 = 0 from rfl, eps9]

/-- C2: for every 2×2 pair, with q = (d-b)/((a-b)-(c-d)) from player 1's
payoffs and p = (h-f)/((e-f)-(g-h)) from player 2's (both denominators
above the 1e-12 guard), the solver returns (p, q) with both expected
payoffs when both probabilities lie in [0,1] and nothing otherwise; and
Matching Pennies has no pure equilibrium and the mixed equilibrium
p = q = 1/2 with expected payoffs (0, 0). -/
theorem C2_mixed_solver_2x2 (a b c d e f g h : ℚ)
    (h1 : eps12 < |(a - b) - (c - d)|) (h2 : eps12 < |(e - f) - (g - h)|) :
    ((0 ≤ (d - b) / ((a - b) - (c - d)) ∧ (d - b) / ((a - b) - (c - d)) ≤ 1 ∧
      0 ≤ (h - f) / ((e - f) - (g - h)) ∧ (h - f) / ((e - f) - (g - h)) ≤ 1) →
      findMixed2x2 [[a, b], [c, d]] [[e, f], [g, h]] =
        some { p_player1_row0 := (h - f) / ((e - f) - (g - h))
               p_player2_col0 := (d - b) / ((a - b) - (c - d))
               p1_expected := (h - f) / ((e - f) - (g - h)) * ((d - b) / ((a - b) - (c - d)) * a + (1 - (d - b) / ((a - b) - (c - d))) * b) + (1 - (h - f) / ((e - f) - (g - h))) * ((d - b) / ((a - b) - (c - d)) * c + (1 - (d - b) / ((a - b) - (c - d))) * d)
               p2_expected := (h - f) / ((e - f) - (g - h)) * ((d - b) / ((a - b) - (c - d)) * e + (1 - (d - b) / ((a - b) - (c - d))) * f) + (1 - (h - f) / ((e - f) - (g - h))) * ((d - b) / ((a - b) - (c - d)) * g + (1 - (d - b) / ((a - b) - (c - d))) * h) }) ∧
    (¬ (0 ≤ (d - b) / ((a - b) - (c - d)) ∧ (d - b) / ((a - b) - (c - d)) ≤ 1 ∧
        0 ≤ (h - f) / ((e - f) - (g - h)) ∧ (h - f) / ((e - f) - (g - h)) ≤ 1) →
      findMixed2x2 [[a, b], [c, d]] [[e, f], [g, h]] = none) ∧
    findPureEquilibria [[1, -1], [-1, 1]] [[-1, 1], [1, -1]] = [] ∧
    findMixed2x2 [[1, -1], [-1, 1]] [[-1, 1], [1, -1]] = some ⟨1/2, 1/2, 0, 0⟩ := by
  have ea : getq [[a, b], [c, d]] 0 0 = a := rfl
  have eb : getq [[a, b], [c, d]] 0 1 = b := rfl
  have ec : getq [[a, b], [c, d]] 1 0 = c := rfl
  have ed : getq [[a, b], [c, d]] 1 1 = d := rfl
  have ee : getq [[e, f], [g, h]] 0 0 = e := rfl
  have ef : getq [[e, f], [g, h]] 0 1 = f := rfl
  have eg : getq [[e, f], [g, h]] 1 0 = g := rfl
  have eh : getq [[e, f], [g, h]] 1 1 = h := rfl
  refine ⟨?_, ?_, ?_, ?_⟩
  · intro hb
    simp only [findMixed2x2, ea, eb, ec, ed, ee, ef, eg, eh]
    rw [if_pos h1, if_pos h2, if_pos hb]
  · intro hb
    simp only [findMixed2x2, ea, eb, ec, ed, ee, ef, eg, eh]
    rw [if_pos h1, if_pos h2, if_neg hb]
  · rw [List.eq_nil_iff_forall_not_mem]
    intro x hx
    obtain ⟨i, j, av, bv⟩ := x
    rw [mem_findPureEquilibria] at hx
    obtain ⟨hi, hj, -, -, hb1, hb2⟩ := hx
    norm_num at hi hj
    interval_cases i <;> interval_cases j
    · have := hb2 1 (by norm_num)
      rw [show getq [[(-1 : ℚ), 1], [1, -1]] 0 1 = 1 from rfl,
        show getq [[(-1 : ℚ), 1], [1, -1]] 0 0 = -1 from rfl] at this
      norm_num [eps9] at this
    · have := hb1 1 (by norm_num)
      rw [show getq [[(1 : ℚ), -1], [-1, 1]] 1 1 = 1 from rfl,
        show getq [[(1 : ℚ), -1], [-1, 1]] 0 1 = -1 from rfl] at this
      norm_num [eps9] at this
    · have := hb1 0 (by norm_num)
      rw [show getq [[(1 : ℚ), -1], [-1, 1]] 0 0 = 1 from rfl,
        show getq [[(1 : ℚ), -1], [-1, 1]] 1 0 = -1 from rfl] at this
      norm_num [eps9] at this
    · have := hb2 0 (by norm_num)
      rw [show getq [[(-1 : ℚ), 1], [1, -1]] 1 0 = 1 from rfl,
        show getq [[(-1 : ℚ), 1], [1, -1]] 1 1 = -1 from rfl] at this
      norm_num [eps9] at this
  · simp only [findMixed2x2,
      show getq [[(1 : ℚ), -1], [-1, 1]] 0 0 = 1 from rfl,
      show getq [[(1 : ℚ), -1], [-1, 1]] 0 1 = -1 from rfl,
      show getq [[(1 : ℚ), -1], [-1, 1]] 1 0 = -1 from rfl,
      show getq [[(1 : ℚ), -1], [-1, 1]] 1 1 = 1 from rfl,
      show getq [[(-1 : ℚ), 1], [1, -1]] 0 0 = -1 from rfl,
      show getq [[(-1 : ℚ), 1], [1, -1]] 0 1 = 1 from rfl,
      show getq [[(-1 : ℚ), 1], [1, -1]] 1 0 = 1 from rfl,
      show getq [[(-1 : ℚ), 1], [1, -1]] 1 1 = -1 from rfl]
    rw [show ((1 : ℚ) - -1) - (-1 - 1) = 4 from by norm_num,
      show ((-1 : ℚ) - 1) - (1 - -1) = -4 from by norm_num,
      abs_of_pos (show (0 : ℚ) < 4 from by norm_num),
      abs_of_neg (show (-4 : ℚ) < 0 from by norm_num)]
    rw [if_pos (show eps12 < (4 : ℚ) from by norm_num [eps12]),
      if_pos (show eps12 < -(-4 : ℚ) from by norm_num [eps12])]
    rw [if_pos (by norm_num)]
    simp only [Option.some.injEq, MixedEq.mk.injEq]
    norm_num

/-- C2 (witness): the Matching Pennies instance of the theorem, with both
denominator guards discharged concretely. -/
theorem C2_witness :
    findMixed2x2 [[1, -1], [-1, 1]] [[-1, 1], [1, -1]] = some ⟨1/2, 1/2, 0, 0⟩ :=
  (C2_mixed_solver_2x2 1 (-1) (-1) 1 (-1) 1 1 (-1)
    (by rw [show ((1 : ℚ) - -1) - (-1 - 1) = 4 from by norm_num,
          abs_of_pos (show (0 : ℚ) < 4 from by norm_num)]
        norm_num [eps12])
    (by rw [show ((-1 : ℚ) - 1) - (1 - -1) = -4 from by norm_num,
          abs_of_neg (show (-4 : ℚ) < 0 from by norm_num)]
        norm_num [eps12])).2.2.2

/-- C3: when either indifference denominator has magnitude below 1e-12 the
2×2 mixed solver returns no equilibrium; in `findMixed2x2` the division is
syntactically guarded by the `1e-12 < |denom|` test, so the quotient is
never formed when the guard fails. -/
theorem C3_near_zero_denominator_guard (p1 p2 : List (List ℚ))
    (h : |(getq p1 0 0 - getq p1 0 1) - (getq p1 1 0 - getq p1 1 1)| < eps12 ∨
         |(getq p2 0 0 - getq p2 0 1) - (getq p2 1 0 - getq p2 1 1)| < eps12) :
    findMixed2x2 p1 p2 = none := by
  rcases h with h | h
  · simp only [findMixed2x2]
    rw [if_neg (lt_asymm h)]
  · simp only [findMixed2x2]
    by_cases h1 : eps12 < |(getq p1 0 0 - getq p1 0 1) - (getq p1 1 0 - getq p1 1 1)|
    · rw [if_pos h1, if_neg (lt_asymm h)]
    · rw [if_neg h1]

/-- C3 (witness): the all-zero 2×2 game has both denominators equal to 0,
below the guard, and the solver returns nothing. -/
theorem C3_witness : findMixed2x2 [[0, 0], [0, 0]] [[0, 0], [0, 0]] = none :=
  C3_near_zero_denominator_guard [[0, 0], [0, 0]] [[0, 0], [0, 0]] (Or.inl (by
    rw [show getq [[(0 : ℚ), 0], [0, 0]] 0 0 = 0 from rfl,
      show getq [[(0 : ℚ), 0], [0, 0]] 0 1 = 0 from rfl,
      show getq [[(0 : ℚ), 0], [0, 0]] 1 0 = 0 from rfl,
      show getq [[(0 : ℚ), 0], [0, 0]] 1 1 = 0 from rfl]
    norm_num [eps12]))

/-- C4: for every BargainingState, `analyze_settlement` computes
plaintiff_batna = win_probability*expected_judgment - trial_costs_plaintiff
and defendant_batna = win_probability*expected_judgment +
trial_costs_defendant, reports zopa_exists iff plaintiff_batna <
defendant_batna, returns zopa_range = [plaintiff_batna, defendant_batna]
with the midpoint Nash solution when the ZOPA exists, and returns both
BATNA values with zopa_exists = false and no numeric solution otherwise. -/
theorem C4_settlement_analysis (s : BargainingState) :
    (analyze_settlement s).plaintiff_batna = s.win_probability * s.expected_judgment - s.trial_costs_plaintiff ∧
    (analyze_settlement s).defendant_batna = s.win_probability * s.expected_judgment + s.trial_costs_defendant ∧
    ((analyze_settlement s).zopa_exists = true ↔
      (analyze_settlement s).plaintiff_batna < (analyze_settlement s).defendant_batna) ∧
    ((analyze_settlement s).plaintiff_batna < (analyze_settlement s).defendant_batna →
      (analyze_settlement s).zopa_range =
        some ((analyze_settlement s).plaintiff_batna, (analyze_settlement s).defendant_batna) ∧
      (analyze_settlement s).nash_solution =
        some (((analyze_settlement s).plaintiff_batna + (analyze_settlement s).defendant_batna) / 2)) ∧
    (¬ (analyze_settlement s).plaintiff_batna < (analyze_settlement s).defendant_batna →
      (analyze_settlement s).zopa_exists = false ∧
      (analyze_settlement s).zopa_range = none ∧
      (analyze_settlement s).nash_solution = none) := by
  by_cases hz : s.win_probability * s.expected_judgment - s.trial_costs_plaintiff <
      s.win_probability * s.expected_judgment + s.trial_costs_defendant
  · simp [analyze_settlement, buildSettlementValues, hz]
  · simp [analyze_settlement, buildSettlementValues, hz]

/-- C4 (witness): with win probability 1/2, judgment 160000, plaintiff
trial costs 40000 and defendant trial costs 0, the BATNAs are 40000 and
80000, the ZOPA is [40000, 80000] and the Nash solution is 60000. -/
theorem C4_witness :
    (analyze_settlement ⟨0, 0, 1/2, 160000, 40000, 0⟩).zopa_range = some (40000, 80000) ∧
    (analyze_settlement ⟨0, 0, 1/2, 160000, 40000, 0⟩).nash_solution = some 60000 := by
  obtain ⟨hp, hd, -, hpos, -⟩ := C4_settlement_analysis ⟨0, 0, 1/2, 160000, 40000, 0⟩
  have hlt : (analyze_settlement ⟨0, 0, 1/2, 160000, 40000, 0⟩).plaintiff_batna <
      (analyze_settlement ⟨0, 0, 1/2, 160000, 40000, 0⟩).defendant_batna := by
    rw [hp, hd]
    norm_num
  obtain ⟨hr, hn⟩ := hpos hlt
  rw [hr, hn, hp, hd]
  norm_num

/-- C6 (counterexample): the claim as stated is false on the code. The
filing type "Recorder" normalizes to "recorder", which is not a member of
the significance list, yet `should_recalculate_nash` accepts it because
the list entry "order" occurs inside it as a substring. -/
theorem C6_counterexample :
    shouldRecalculateNash "Recorder" = true ∧ specSignificanceMatch "Recorder" = false := by
  constructor
  · rfl
  · rfl

/-- C6 (amended): the trigger fires iff some entry of the fixed
significance list occurs as a contiguous substring of the lowercased,
space-normalized filing type (so exact members fire, but so does any
filing type merely containing a significant token); and whenever the test
rejects the filing type, the stored GameParameters are left unchanged. -/
theorem C6_trigger_condition (e : CaseEvent) (params : GameParameters) :
    (shouldRecalculateNash e.filing_type = true ↔
      ∃ sf ∈ significant_filings, ∃ u t, (normalizeFiling e.filing_type).data = u ++ sf.data ++ t) ∧
    (shouldRecalculateNash e.filing_type = false → processEvent params e = params) := by
  constructor
  · simp only [shouldRecalculateNash, List.any_eq_true, strHasSub, subListCh_iff]
  · intro h
    rw [processEvent, h]
    rfl

/-- C6 (witness): "notice_of_appearance" contains no significant token, is
rejected, and leaves a concrete parameter store unchanged. -/
theorem C6_witness :
    shouldRecalculateNash "notice_of_appearance" = false ∧
    processEvent ⟨some 1000, some 2000, some 300, some (1/2), some "settle"⟩
      ⟨"notice_of_appearance", ⟨"notice_of_appearance", false, none, none, none⟩⟩ =
      ⟨some 1000, some 2000, some 300, some (1/2), some "settle"⟩ :=
  ⟨rfl, (C6_trigger_condition
    ⟨"notice_of_appearance", ⟨"notice_of_appearance", false, none, none, none⟩⟩
    ⟨some 1000, some 2000, some 300, some (1/2), some "settle"⟩).2 rfl⟩

/-- C7 (counterexample): the claim as stated is false on the code. On a
first-ever recalculation (null `previous_optimal_strategy`) the Python
expression `previous and previous != new` evaluates to None, not to the
boolean False, so the record's `strategy_changed` field is None. -/
theorem C7_counterexample :
    ((recalculateNash ⟨none, none, none, none, none⟩ ⟨"order", false, none, none, none⟩).1).strategy_changed =
      PyVal.vNone ∧ PyVal.vNone ≠ PyVal.vBool false := by
  constructor
  · rfl
  · intro h
    cases h

/-- C7 (amended): `strategy_changed` is the Python value of
`previous and previous != new`: when the stored previous strategy is null
it is None (falsy but not the boolean False), and when it is a non-empty
string it is the boolean comparing previous with the newly computed
optimal strategy. -/
theorem C7_strategy_changed (params : GameParameters) (d : FilingDetails) :
    (params.previous_optimal_strategy = none →
      ((recalculateNash params d).1).strategy_changed = PyVal.vNone) ∧
    (∀ s, params.previous_optimal_strategy = some s → s ≠ "" →
      ((recalculateNash params d).1).strategy_changed =
        PyVal.vBool (decide (s ≠ ((recalculateNash params d).1).optimal_strategy))) := by
  constructor
  · intro h
    simp [recalculateNash, h]
  · intro s hs hne
    simp [recalculateNash, hs, hne]

/-- C7 (witness): with previous strategy "trial" stored and parameters
that make settling optimal, `strategy_changed` is the boolean true. -/
theorem C7_witness :
    ((recalculateNash ⟨some 50000, some 100000, some 25000, some (1/2), some "trial"⟩
        ⟨"order", false, none, none, none⟩).1).strategy_changed =
      PyVal.vBool (decide ("trial" ≠ ((recalculateNash
        ⟨some 50000, some 100000, some 25000, some (1/2), some "trial"⟩
        ⟨"order", false, none, none, none⟩).1).optimal_strategy)) :=
  (C7_strategy_changed ⟨some 50000, some 100000, some 25000, some (1/2), some "trial"⟩
    ⟨"order", false, none, none, none⟩).2 "trial" rfl (by simp)

/-- C8: after processing any finite sequence of significant case events —
in particular any number of replays of one identical event — the stored
win probability is some value clamped into [0.05, 0.95]; the clamp is
reapplied by every recalculation. -/
theorem C8_win_probability_clamped (params : GameParameters) (evs : List CaseEvent) (e : CaseEvent)
    (hsig : ∀ ev ∈ evs ++ [e], shouldRecalculateNash ev.filing_type = true) :
    ∃ w, (List.foldl processEvent params (evs ++ [e])).win_probability = some w ∧
      1/20 ≤ w ∧ w ≤ 19/20 := by
  have he : shouldRecalculateNash e.filing_type = true := hsig e (by simp)
  rw [List.foldl_append, List.foldl_cons, List.foldl_nil]
  rw [processEvent, he]
  rw [if_pos rfl]
  exact recalculateNash_win_prob_clamped _ _

/-- C8 (witness): a single significant "ruling" event on a fresh store
yields a clamped stored win probability. -/
theorem C8_witness :
    ∃ w, (List.foldl processEvent (⟨none, none, none, none, none⟩ : GameParameters)
        ([] ++ [(⟨"ruling", ⟨"ruling", false, none, none, none⟩⟩ : CaseEvent)])).win_probability = some w ∧
      1/20 ≤ w ∧ w ≤ 19/20 :=
  C8_win_probability_clamped ⟨none, none, none, none, none⟩ []
    ⟨"ruling", ⟨"ruling", false, none, none, none⟩⟩
    (by
      intro ev hev
      simp only [List.nil_append, List.mem_singleton] at hev
      subst hev
      rfl)

/-- C10: replaying one identical expert-report event carrying a damages
delta through the recalculation trigger k times adds exactly k times the
delta to the stored expected judgment — the update is cumulative, not
idempotent. -/
theorem C10_expert_judgment_cumulative (params : GameParameters) (e : CaseEvent) (j δ : ℚ) (k : ℕ)
    (hj : params.expected_judgment = some j)
    (hs : shouldRecalculateNash e.filing_type = true)
    (h1 : strHasSub (strLower e.details.ftype) "summary_judgment" = false)
    (h2 : strHasSub (strLower e.details.ftype) "settlement" = false)
    (h3 : strHasSub (strLower e.details.ftype) "expert" = true)
    (hd : e.details.damages_opinion_change = some δ) :
    ((fun p => processEvent p e)^[k] params).expected_judgment = some (j + k * δ) := by
  induction k generalizing params j with
  | zero => simpa using hj
  | succ n ih =>
    rw [Function.iterate_succ_apply]
    have hstep : (processEvent params e).expected_judgment = some (j + δ) := by
      rw [processEvent, hs, if_pos rfl]
      exact recalculateNash_expert_step params e.details j δ hj h1 h2 h3 hd
    rw [ih (processEvent params e) (j + δ) hstep]
    congr 1
    push_cast
    ring

/-- C10 (witness): three replays of an expert report with a 5-unit damages
delta move a stored expected judgment of 100 to 100 + 3·5. -/
theorem C10_witness :
    shouldRecalculateNash "expert_report" = true ∧
    ((fun p => processEvent p
        (⟨"expert_report", ⟨"expert_report", false, none, none, some 5⟩⟩ : CaseEvent))^[3]
      (⟨none, some 100, none, none, none⟩ : GameParameters)).expected_judgment =
      some ((100 : ℚ) + ((3 : ℕ) : ℚ) * 5) :=
  ⟨rfl, C10_expert_judgment_cumulative ⟨none, some 100, none, none, none⟩
    ⟨"expert_report", ⟨"expert_report", false, none, none, some 5⟩⟩ 100 5 3
    rfl rfl rfl rfl rfl rfl⟩

end LegalOracle
